import Mathlib

/-!
Verification of the distributed-cache coordination engine
(huykn/distributed-cache): a shallow embedding of the cache
orchestrator (SyncedCache), the Redis-backed store wrapper and the
pub/sub synchronizer, with theorems about the observable cache API
behaviour.

External collaborators (the Redis client, the pub/sub transport, the
pluggable marshaller) are modelled as oracles: each orchestrator
operation takes the response the collaborator would give for each call
it may make, and the state records a trace of every call actually
issued, so frame properties ("the store is never contacted") are
statements about the trace.
-/

namespace DistCache

/-- Byte payloads, as produced by the serializer and carried by events. -/
abbrev Bytes := List Nat

/-- A dynamic Go value (`any`).  `vnil` is the Go nil interface value. -/
inductive GoValue where
  | vnil
  | vstr (s : String)
  | vint (n : Int)
  | vbytes (b : Bytes)
deriving DecidableEq, Repr

/-- Go `error` values returned by the cache engine and its collaborators. -/
inductive GoErr where
  | cacheClosed
  | marshalFailed (msg : String)
  | unmarshalFailed (msg : String)
  | storeFailed (msg : String)
  | publishFailed (msg : String)
  | closeFailed (msg : String)
deriving DecidableEq, Repr

/-- types.InvalidationEvent: the unit of cross-instance communication. -/
structure Event where
  key : String
  sender : String
  action : String
  value : Bytes
deriving DecidableEq, Repr

/-- types.Set -/
def actionSet : String := "set"

/-- types.Invalidate -/
def actionInvalidate : String := "invalidate"

/-- types.Delete -/
def actionDelete : String := "delete"

/-- types.Clear -/
def actionClear : String := "clear"

/-- cache.Stats: the monotone counters of the orchestrator. -/
structure Stats where
  localHits : Nat := 0
  localMisses : Nat := 0
  remoteHits : Nat := 0
  remoteMisses : Nat := 0
  invalidations : Nat := 0
deriving DecidableEq, Repr

/-- Trace of every call the orchestrator issued to its collaborators:
remote-store reads/writes/deletes/flushes, published events, errors
reported through the OnError callback, and teardown calls (in order). -/
structure Trace where
  storeGets : List String := []
  storeSets : List (String × Bytes) := []
  storeDeletes : List String := []
  storeClears : Nat := 0
  published : List Event := []
  reported : List GoErr := []
  closeCalls : List String := []
deriving DecidableEq, Repr

/-- The orchestrator configuration (cache.Options, root Config):
pod identity, the write-through permission flag, whether the OnError
and OnSetLocalCache callbacks are configured (a Go nil func is the
flag being false), and the pluggable marshaller. -/
structure Config where
  podID : String
  readerCanSetToRedis : Bool
  hasOnError : Bool
  hasOnSetLocalCache : Bool
  onSetLocalCache : Event → GoValue
  marshal : GoValue → Except GoErr Bytes
  unmarshal : Bytes → Except GoErr GoValue

/-- The orchestrator state: the local cache contents (the
LocalCache contract: a keyed map), the closed flag, the stats counters
and the collaborator-call trace. -/
structure CacheState where
  localCache : List (String × GoValue) := []
  closed : Bool := false
  stats : Stats := {}
  trace : Trace := {}
deriving DecidableEq, Repr

/-- LocalCache.Get: comma-ok lookup; Go returns (nil, false) when absent. -/
def localGet (m : List (String × GoValue)) (key : String) : GoValue × Bool :=
  match m.find? (fun p => p.1 == key) with
  | some p => (p.2, true)
  | none => (GoValue.vnil, false)

/-- LocalCache.Set: store or overwrite the entry for the key. -/
def localSet (m : List (String × GoValue)) (key : String) (value : GoValue) :
    List (String × GoValue) :=
  (key, value) :: m.filter (fun p => p.1 != key)

/-- LocalCache.Delete: remove the entry for the key. -/
def localDelete (m : List (String × GoValue)) (key : String) :
    List (String × GoValue) :=
  m.filter (fun p => p.1 != key)

/-- LocalCache.Clear: remove every entry. -/
def localClear : List (String × GoValue) := []

/-- recordLocalHit -/
def recordLocalHit (st : CacheState) : CacheState :=
  { st with stats := { st.stats with localHits := st.stats.localHits + 1 } }

/-- recordLocalMiss -/
def recordLocalMiss (st : CacheState) : CacheState :=
  { st with stats := { st.stats with localMisses := st.stats.localMisses + 1 } }

/-- recordRemoteHit -/
def recordRemoteHit (st : CacheState) : CacheState :=
  { st with stats := { st.stats with remoteHits := st.stats.remoteHits + 1 } }

/-- recordRemoteMiss -/
def recordRemoteMiss (st : CacheState) : CacheState :=
  { st with stats := { st.stats with remoteMisses := st.stats.remoteMisses + 1 } }

/-- The `if sc.options.OnError != nil { sc.options.OnError(err) }` pattern:
record the error in the report trace when the callback is configured. -/
def reportError (cfg : Config) (st : CacheState) (err : GoErr) : CacheState :=
  if cfg.hasOnError then
    { st with trace := { st.trace with reported := st.trace.reported ++ [err] } }
  else st

/-- Record a remote-store Get call in the trace. -/
def traceStoreGet (st : CacheState) (key : String) : CacheState :=
  { st with trace := { st.trace with storeGets := st.trace.storeGets ++ [key] } }

/-- Record a remote-store Set call in the trace. -/
def traceStoreSet (st : CacheState) (key : String) (data : Bytes) : CacheState :=
  { st with trace := { st.trace with storeSets := st.trace.storeSets ++ [(key, data)] } }

/-- Record a remote-store Delete call in the trace. -/
def traceStoreDelete (st : CacheState) (key : String) : CacheState :=
  { st with trace := { st.trace with storeDeletes := st.trace.storeDeletes ++ [key] } }

/-- Record a remote-store Clear (FlushDB) call in the trace. -/
def traceStoreClear (st : CacheState) : CacheState :=
  { st with trace := { st.trace with storeClears := st.trace.storeClears + 1 } }

/-- Record a synchronizer Publish call in the trace. -/
def tracePublish (st : CacheState) (event : Event) : CacheState :=
  { st with trace := { st.trace with published := st.trace.published ++ [event] } }

/-- Errors a Store.Get can yield: the distinguished not-found, or any
other backend failure (timeout, connection refused, ...). -/
inductive StoreError where
  | notFound
  | other (msg : String)
deriving DecidableEq, Repr

/-- SyncedCache.Get.  `storeResp` is the answer the remote store would
give if queried for this key; the trace records whether it was queried.
Returns the Go pair (value, found) and the updated state. -/
def SyncedCache.Get (cfg : Config) (st : CacheState)
    (storeResp : Except StoreError Bytes) (key : String) :
    (GoValue × Bool) × CacheState :=
  if st.closed then ((GoValue.vnil, false), st)
  else
    let lr := localGet st.localCache key
    if lr.2 then ((lr.1, true), recordLocalHit st)
    else
      let st1 := traceStoreGet (recordLocalMiss st) key
      match storeResp with
      | .error _ => ((GoValue.vnil, false), recordRemoteMiss st1)
      | .ok data =>
        let st2 := recordRemoteHit st1
        match cfg.unmarshal data with
        | .error err => ((GoValue.vnil, false), reportError cfg st2 err)
        | .ok result =>
          ((result, true), { st2 with localCache := localSet st2.localCache key result })

/-- The tail of SyncedCache.setInternal after the remote-store step:
build the synchronization event, publish it, and swallow (but report)
a publish failure. -/
def SyncedCache.publishStep (cfg : Config) (st : CacheState) (key : String)
    (data : Bytes) (invalidateOnly : Bool) (publishResp : Option GoErr) :
    Option GoErr × CacheState :=
  let event : Event :=
    if invalidateOnly then
      { key := key, sender := cfg.podID, action := actionInvalidate, value := [] }
    else
      { key := key, sender := cfg.podID, action := actionSet, value := data }
  let st1 := tracePublish st event
  match publishResp with
  | some err => (none, reportError cfg st1 err)
  | none => (none, st1)

/-- SyncedCache.setInternal.  `storeSetResp` is the outcome the remote
store would give to a Set call (none = success); `publishResp` likewise
for the Publish call of the synchronizer. -/
def SyncedCache.setInternal (cfg : Config) (st : CacheState)
    (storeSetResp publishResp : Option GoErr)
    (key : String) (value : GoValue) (invalidateOnly : Bool) :
    Option GoErr × CacheState :=
  if st.closed then (some GoErr.cacheClosed, st)
  else
    let st1 := { st with localCache := localSet st.localCache key value }
    match cfg.marshal value with
    | .error err => (some err, reportError cfg st1 err)
    | .ok data =>
      if cfg.readerCanSetToRedis then
        let st2 := traceStoreSet st1 key data
        match storeSetResp with
        | some err => (some err, reportError cfg st2 err)
        | none => SyncedCache.publishStep cfg st2 key data invalidateOnly publishResp
      else
        SyncedCache.publishStep cfg st1 key data invalidateOnly publishResp

/-- SyncedCache.Set: propagate the value to other pods. -/
def SyncedCache.Set (cfg : Config) (st : CacheState)
    (storeSetResp publishResp : Option GoErr) (key : String) (value : GoValue) :
    Option GoErr × CacheState :=
  SyncedCache.setInternal cfg st storeSetResp publishResp key value false

/-- SyncedCache.SetWithInvalidate: only invalidate the key on other pods. -/
def SyncedCache.SetWithInvalidate (cfg : Config) (st : CacheState)
    (storeSetResp publishResp : Option GoErr) (key : String) (value : GoValue) :
    Option GoErr × CacheState :=
  SyncedCache.setInternal cfg st storeSetResp publishResp key value true

/-- SyncedCache.Delete. -/
def SyncedCache.Delete (cfg : Config) (st : CacheState)
    (storeDelResp publishResp : Option GoErr) (key : String) :
    Option GoErr × CacheState :=
  if st.closed then (some GoErr.cacheClosed, st)
  else
    let st1 := { st with localCache := localDelete st.localCache key }
    let st2 := traceStoreDelete st1 key
    match storeDelResp with
    | some err => (some err, reportError cfg st2 err)
    | none =>
      let event : Event :=
        { key := key, sender := cfg.podID, action := actionDelete, value := [] }
      let st3 := tracePublish st2 event
      match publishResp with
      | some err => (none, reportError cfg st3 err)
      | none => (none, st3)

/-- SyncedCache.Clear. -/
def SyncedCache.Clear (cfg : Config) (st : CacheState)
    (storeClearResp publishResp : Option GoErr) :
    Option GoErr × CacheState :=
  if st.closed then (some GoErr.cacheClosed, st)
  else
    let st1 := { st with localCache := localClear }
    let st2 := traceStoreClear st1
    match storeClearResp with
    | some err => (some err, reportError cfg st2 err)
    | none =>
      let event : Event :=
        { key := "*", sender := cfg.podID, action := actionClear, value := [] }
      let st3 := tracePublish st2 event
      match publishResp with
      | some err => (none, reportError cfg st3 err)
      | none => (none, st3)

/-- SyncedCache.Close: a compare-and-swap on the closed flag guards the
teardown; synchronizer, store, then local cache are closed, and the
first error among the fallible closes is returned. -/
def SyncedCache.Close (st : CacheState)
    (syncCloseResp storeCloseResp : Option GoErr) :
    Option GoErr × CacheState :=
  if st.closed then (none, st)
  else
    let st1 := { st with closed := true }
    let st2 := { st1 with trace :=
      { st1.trace with closeCalls := st1.trace.closeCalls ++ ["sync", "store", "local"] } }
    let errs :=
      (match syncCloseResp with | some e => [e] | none => []) ++
      (match storeCloseResp with | some e => [e] | none => [])
    (errs.head?, st2)

/-- SyncedCache.handleInvalidation: the callback registered with the
synchronizer, run once per delivered peer event. -/
def SyncedCache.handleInvalidation (cfg : Config) (st : CacheState)
    (event : Event) : CacheState :=
  if event.action == actionSet then
    if 0 < event.value.length then
      if cfg.hasOnSetLocalCache then
        let value := cfg.onSetLocalCache event
        { st with localCache := localSet st.localCache event.key value }
      else
        match cfg.unmarshal event.value with
        | .error err => reportError cfg st err
        | .ok value =>
          { st with localCache := localSet st.localCache event.key value }
    else st
  else if event.action == actionInvalidate || event.action == actionDelete then
    let st1 := { st with localCache := localDelete st.localCache event.key }
    { st1 with stats := { st1.stats with invalidations := st1.stats.invalidations + 1 } }
  else if event.action == actionClear then
    let st1 := { st with localCache := localClear }
    { st1 with stats := { st1.stats with invalidations := st1.stats.invalidations + 1 } }
  else st

/-- A reply from the Get of the Redis client: a payload, the distinguished
redis.Nil reply for a missing key, or any other failure. -/
inductive RedisReply where
  | bytes (b : Bytes)
  | redisNil
  | connErr (msg : String)
deriving DecidableEq, Repr

/-- The Get of the Redis client against the database contents: a missing key
yields the redis.Nil reply. -/
def redisClientGet (data : List (String × Bytes)) (key : String) : RedisReply :=
  match data.find? (fun p => p.1 == key) with
  | some p => RedisReply.bytes p.2
  | none => RedisReply.redisNil

/-- RedisStore.Get: translate the client reply, mapping redis.Nil to the
distinguished ErrNotFound and passing other errors through. -/
def RedisStore.Get (reply : RedisReply) : Except StoreError Bytes :=
  match reply with
  | .bytes b => .ok b
  | .redisNil => .error StoreError.notFound
  | .connErr msg => .error (StoreError.other msg)

/-- PubSubSynchronizer: instance identity plus the registered callbacks
(identified by index, in registration order). -/
structure PubSubSynchronizer where
  podID : String
  callbacks : List Nat
deriving DecidableEq, Repr

/-- One iteration of PubSubSynchronizer.listenForEvents for a received
message: `parsed` is the result of deserializing the payload (none when
json.Unmarshal failed).  Returns the callback invocations performed:
self-sent events and undecodable payloads produce none; every other
event goes to every registered callback. -/
def PubSubSynchronizer.deliverEvent (ps : PubSubSynchronizer)
    (parsed : Option Event) : List (Nat × Event) :=
  match parsed with
  | none => []
  | some event =>
    if event.sender == ps.podID then []
    else ps.callbacks.map (fun c => (c, event))

/-- A tiny injective encoding of GoValue, standing in for the pluggable
JSON marshaller in concrete instantiations. -/
def encodeVal : GoValue → Bytes
  | GoValue.vnil => [0]
  | GoValue.vstr s => 1 :: (s.toList.map Char.toNat)
  | GoValue.vint n => [2, n.toNat]
  | GoValue.vbytes b => 3 :: b

/-- Decoder matching `encodeVal` on its range; anything else fails. -/
def decodeVal : Bytes → Except GoErr GoValue
  | [0] => .ok GoValue.vnil
  | 1 :: cs => .ok (GoValue.vstr (String.mk (cs.map Char.ofNat)))
  | [2, n] => .ok (GoValue.vint (Int.ofNat n))
  | 3 :: b => .ok (GoValue.vbytes b)
  | _ => .error (GoErr.unmarshalFailed "bad payload")

/-- A writer-instance configuration used for concrete instantiations. -/
def testConfig : Config :=
  { podID := "pod-a"
    readerCanSetToRedis := true
    hasOnError := true
    hasOnSetLocalCache := false
    onSetLocalCache := fun _ => GoValue.vnil
    marshal := fun v => .ok (encodeVal v)
    unmarshal := decodeVal }

/-- A reader-instance configuration: write-through disabled. -/
def readerConfig : Config :=
  { testConfig with readerCanSetToRedis := false }

/-- A configuration whose marshaller always fails. -/
def failMarshalConfig : Config :=
  { testConfig with marshal := fun _ => .error (GoErr.marshalFailed "boom") }

/-- A configuration with a transform hook that always rejects (returns
the Go nil interface value), as the stale-data-prevention example does
for stale events. -/
def hookNilConfig : Config :=
  { testConfig with
    hasOnSetLocalCache := true
    onSetLocalCache := fun _ => GoValue.vnil }

theorem localGet_localSet_self (m : List (String × GoValue)) (k : String) (v : GoValue) :
    localGet (localSet m k v) k = (v, true) := by
  simp [localGet, localSet, List.find?]

theorem find?_filterKey_self (m : List (String × GoValue)) (k : String) :
    (m.filter (fun p => p.1 != k)).find? (fun p => p.1 == k) = none := by
  induction m with
  | nil => rfl
  | cons a t ih =>
    by_cases ha : a.1 = k
    · have h1 : (a.1 != k) = false := by simp [bne_iff_ne, ha]
      simp [List.filter_cons, h1, ih]
    · have h1 : (a.1 != k) = true := by simp [bne_iff_ne, ha]
      have h2 : (a.1 == k) = false := by simp [ha]
      simp [List.filter_cons, List.find?_cons, h1, h2, ih]

theorem find?_filterKey_ne (m : List (String × GoValue)) (k q : String)
    (h : q ≠ k) :
    (m.filter (fun p => p.1 != k)).find? (fun p => p.1 == q)
      = m.find? (fun p => p.1 == q) := by
  induction m with
  | nil => rfl
  | cons a t ih =>
    by_cases ha : a.1 = k
    · have h1 : (a.1 != k) = false := by simp [bne_iff_ne, ha]
      have h2 : (a.1 == q) = false := by
        rw [beq_eq_false_iff_ne, ha]
        exact Ne.symm h
      simp [List.filter_cons, List.find?_cons, h1, h2, ih]
    · have h1 : (a.1 != k) = true := by simp [bne_iff_ne, ha]
      by_cases haq : a.1 = q
      · have h2 : (a.1 == q) = true := by simp [haq]
        simp [List.filter_cons, List.find?_cons, h1, h2]
      · have h2 : (a.1 == q) = false := by simp [haq]
        simp [List.filter_cons, List.find?_cons, h1, h2, ih]

theorem localGet_localDelete_self (m : List (String × GoValue)) (k : String) :
    localGet (localDelete m k) k = (GoValue.vnil, false) := by
  unfold localGet localDelete
  rw [find?_filterKey_self]

theorem localGet_localDelete_ne (m : List (String × GoValue)) (k q : String)
    (h : q ≠ k) : localGet (localDelete m k) q = localGet m q := by
  unfold localGet localDelete
  rw [find?_filterKey_ne m k q h]

theorem reportError_localCache (cfg : Config) (st : CacheState) (e : GoErr) :
    (reportError cfg st e).localCache = st.localCache := by
  unfold reportError
  split <;> rfl

theorem reportError_closed (cfg : Config) (st : CacheState) (e : GoErr) :
    (reportError cfg st e).closed = st.closed := by
  unfold reportError
  split <;> rfl

theorem reportError_stats (cfg : Config) (st : CacheState) (e : GoErr) :
    (reportError cfg st e).stats = st.stats := by
  unfold reportError
  split <;> rfl

theorem reportError_storeGets (cfg : Config) (st : CacheState) (e : GoErr) :
    (reportError cfg st e).trace.storeGets = st.trace.storeGets := by
  unfold reportError
  split <;> rfl

theorem reportError_storeSets (cfg : Config) (st : CacheState) (e : GoErr) :
    (reportError cfg st e).trace.storeSets = st.trace.storeSets := by
  unfold reportError
  split <;> rfl

theorem reportError_published (cfg : Config) (st : CacheState) (e : GoErr) :
    (reportError cfg st e).trace.published = st.trace.published := by
  unfold reportError
  split <;> rfl

theorem reportError_storeDeletes (cfg : Config) (st : CacheState) (e : GoErr) :
    (reportError cfg st e).trace.storeDeletes = st.trace.storeDeletes := by
  unfold reportError
  split <;> rfl

theorem reportError_storeClears (cfg : Config) (st : CacheState) (e : GoErr) :
    (reportError cfg st e).trace.storeClears = st.trace.storeClears := by
  unfold reportError
  split <;> rfl

/-- Shape of a successful setInternal: the state it returns is open,
its local cache holds the freshly written value, its stats are
untouched, and no store read happened during the call. -/
theorem setInternal_ok_shape (cfg : Config) (st : CacheState) (ssr pr : Option GoErr)
    (k : String) (v : GoValue) (inv : Bool) (st1 : CacheState)
    (h : SyncedCache.setInternal cfg st ssr pr k v inv = (none, st1)) :
    st1.closed = st.closed ∧ st1.localCache = localSet st.localCache k v ∧
    st1.stats = st.stats ∧ st1.trace.storeGets = st.trace.storeGets := by
  unfold SyncedCache.setInternal SyncedCache.publishStep at h
  cases hcl : st.closed with
  | true => simp [hcl] at h
  | false =>
    simp only [hcl, Bool.false_eq_true, if_false] at h
    cases hm : cfg.marshal v with
    | error e => simp [hm] at h
    | ok data =>
      simp only [hm] at h
      cases hr : cfg.readerCanSetToRedis with
      | true =>
        simp only [hr, if_true] at h
        cases hs : ssr with
        | some e => simp [hs] at h
        | none =>
          simp only [hs] at h
          cases hp : pr with
          | some e =>
            simp only [hp, Prod.mk.injEq, true_and] at h
            subst h
            simp [reportError_closed, reportError_localCache, reportError_stats,
              reportError_storeGets, tracePublish, traceStoreSet, hcl]
          | none =>
            simp only [hp, Prod.mk.injEq, true_and] at h
            subst h
            simp [tracePublish, traceStoreSet, hcl]
      | false =>
        simp only [hr, Bool.false_eq_true, if_false] at h
        cases hp : pr with
        | some e =>
          simp only [hp, Prod.mk.injEq, true_and] at h
          subst h
          simp [reportError_closed, reportError_localCache, reportError_stats,
            reportError_storeGets, tracePublish, hcl]
        | none =>
          simp only [hp, Prod.mk.injEq, true_and] at h
          subst h
          simp [tracePublish, hcl]

/-- C1: if Set(ctx, k, v) on an open cache instance returns nil, then an
immediately following Get(ctx, k) on the same instance returns (v, true)
served from the local cache: the LocalHits counter increases by one, the
RemoteHits and RemoteMisses counters are unchanged, and the remote store
is not contacted. -/
theorem set_then_get_served_locally (cfg : Config) (st st1 : CacheState)
    (ssr pr : Option GoErr) (sr : Except StoreError Bytes)
    (k : String) (v : GoValue)
    (h : SyncedCache.Set cfg st ssr pr k v = (none, st1)) :
    (SyncedCache.Get cfg st1 sr k).1 = (v, true) ∧
    (SyncedCache.Get cfg st1 sr k).2.stats.localHits = st.stats.localHits + 1 ∧
    (SyncedCache.Get cfg st1 sr k).2.stats.remoteHits = st.stats.remoteHits ∧
    (SyncedCache.Get cfg st1 sr k).2.stats.remoteMisses = st.stats.remoteMisses ∧
    (SyncedCache.Get cfg st1 sr k).2.trace.storeGets = st.trace.storeGets := by
  have h0 : SyncedCache.setInternal cfg st ssr pr k v false = (none, st1) := h
  obtain ⟨hcl, hloc, hstats, hgets⟩ := setInternal_ok_shape cfg st ssr pr k v false st1 h0
  have hclosed : st.closed = false := by
    cases hc : st.closed with
    | false => rfl
    | true =>
      unfold SyncedCache.setInternal at h0
      simp [hc] at h0
  rw [hclosed] at hcl
  have hget : SyncedCache.Get cfg st1 sr k = ((v, true), recordLocalHit st1) := by
    unfold SyncedCache.Get
    simp [hcl, hloc, localGet_localSet_self]
  rw [hget]
  refine ⟨rfl, ?_, ?_, ?_, ?_⟩ <;> simp [recordLocalHit, hstats, hgets]

/-- Witness for C1 at concrete inputs. -/
theorem set_then_get_served_locally_witness :
    (SyncedCache.Get testConfig
        (SyncedCache.Set testConfig {} none none "k" (GoValue.vstr "v")).2
        (Except.error StoreError.notFound) "k").1 = (GoValue.vstr "v", true) ∧
    (SyncedCache.Get testConfig
        (SyncedCache.Set testConfig {} none none "k" (GoValue.vstr "v")).2
        (Except.error StoreError.notFound) "k").2.stats.localHits
      = ({} : CacheState).stats.localHits + 1 ∧
    (SyncedCache.Get testConfig
        (SyncedCache.Set testConfig {} none none "k" (GoValue.vstr "v")).2
        (Except.error StoreError.notFound) "k").2.stats.remoteHits
      = ({} : CacheState).stats.remoteHits ∧
    (SyncedCache.Get testConfig
        (SyncedCache.Set testConfig {} none none "k" (GoValue.vstr "v")).2
        (Except.error StoreError.notFound) "k").2.stats.remoteMisses
      = ({} : CacheState).stats.remoteMisses ∧
    (SyncedCache.Get testConfig
        (SyncedCache.Set testConfig {} none none "k" (GoValue.vstr "v")).2
        (Except.error StoreError.notFound) "k").2.trace.storeGets
      = ({} : CacheState).trace.storeGets :=
  set_then_get_served_locally testConfig {} _ none none
    (Except.error StoreError.notFound) "k" (GoValue.vstr "v") rfl

/-- C2: evaluation of handleInvalidation at the failing input.  With a
transform hook configured, a set event with non-empty Value whose hook
result is nil is NOT skipped: the nil value is written into the local
cache, and a subsequent local lookup reports the key as present (found
with the nil value) instead of absent. -/
theorem hook_nil_result_still_cached :
    (SyncedCache.handleInvalidation hookNilConfig {}
        { key := "k", sender := "peer", action := actionSet, value := [1] }).localCache
      = [("k", GoValue.vnil)] ∧
    localGet (SyncedCache.handleInvalidation hookNilConfig {}
        { key := "k", sender := "peer", action := actionSet, value := [1] }).localCache "k"
      = (GoValue.vnil, true) :=
  ⟨rfl, rfl⟩

/-- C3 counterexample: the Orchestrator Get does NOT handle generic
backend failures differently from absence.  At a concrete open state
with an empty local cache, a generic store error (a connection failure)
is processed exactly as the distinguished not-found: the same resulting
state, a remote miss recorded, and (nil, false) returned. -/
theorem generic_store_error_treated_as_miss :
    SyncedCache.Get testConfig {}
        (Except.error (StoreError.other "connection refused")) "k"
      = SyncedCache.Get testConfig {} (Except.error StoreError.notFound) "k" ∧
    (SyncedCache.Get testConfig {}
        (Except.error (StoreError.other "connection refused")) "k").1
      = (GoValue.vnil, false) ∧
    (SyncedCache.Get testConfig {}
        (Except.error (StoreError.other "connection refused")) "k").2.stats.remoteMisses
      = 1 :=
  ⟨rfl, rfl, rfl⟩

/-- C3 (amended): the Remote Store Get maps a missing key to the
distinguished not-found error; the Orchestrator Get, however, treats
every store error alike — not-found or generic — recording a remote
miss and returning (nil, false). -/
theorem redis_notfound_and_uniform_miss (data : List (String × Bytes))
    (q k : String) (cfg : Config) (st : CacheState) (e1 e2 : StoreError)
    (hmiss : data.find? (fun p => p.1 == q) = none) :
    RedisStore.Get (redisClientGet data q) = Except.error StoreError.notFound ∧
    SyncedCache.Get cfg st (Except.error e1) k
      = SyncedCache.Get cfg st (Except.error e2) k ∧
    ((localGet st.localCache k).2 = false → st.closed = false →
      (SyncedCache.Get cfg st (Except.error e1) k).1 = (GoValue.vnil, false) ∧
      (SyncedCache.Get cfg st (Except.error e1) k).2.stats.remoteMisses
        = st.stats.remoteMisses + 1) := by
  refine ⟨?_, rfl, ?_⟩
  · unfold redisClientGet
    rw [hmiss]
    rfl
  · intro hl hc
    unfold SyncedCache.Get
    simp [hc, hl, recordRemoteMiss, traceStoreGet, recordLocalMiss]

/-- Witness for the amended C3 at concrete inputs. -/
theorem redis_notfound_and_uniform_miss_witness :
    RedisStore.Get (redisClientGet [] "k") = Except.error StoreError.notFound ∧
    SyncedCache.Get testConfig {} (Except.error (StoreError.other "timeout")) "k"
      = SyncedCache.Get testConfig {} (Except.error StoreError.notFound) "k" ∧
    (SyncedCache.Get testConfig {}
        (Except.error (StoreError.other "timeout")) "k").1 = (GoValue.vnil, false) ∧
    (SyncedCache.Get testConfig {}
        (Except.error (StoreError.other "timeout")) "k").2.stats.remoteMisses
      = ({} : CacheState).stats.remoteMisses + 1 := by
  have h := redis_notfound_and_uniform_miss [] "k" "k" testConfig {}
    (StoreError.other "timeout") StoreError.notFound rfl
  exact ⟨h.1, h.2.1, (h.2.2 rfl rfl).1, (h.2.2 rfl rfl).2⟩

/-- C4: on an open instance, if serialization fails, or write-through is
permitted and the remote write fails, setInternal returns that error,
publishes nothing, and the local cache still holds the newly written
value. -/
theorem set_error_paths_keep_local (cfg : Config) (st : CacheState)
    (ssr pr : Option GoErr) (k : String) (v : GoValue) (inv : Bool)
    (hopen : st.closed = false) :
    (∀ e, cfg.marshal v = Except.error e →
      (SyncedCache.setInternal cfg st ssr pr k v inv).1 = some e ∧
      (SyncedCache.setInternal cfg st ssr pr k v inv).2.trace.published
        = st.trace.published ∧
      localGet (SyncedCache.setInternal cfg st ssr pr k v inv).2.localCache k
        = (v, true)) ∧
    (∀ data e, cfg.marshal v = Except.ok data → cfg.readerCanSetToRedis = true →
      ssr = some e →
      (SyncedCache.setInternal cfg st ssr pr k v inv).1 = some e ∧
      (SyncedCache.setInternal cfg st ssr pr k v inv).2.trace.published
        = st.trace.published ∧
      localGet (SyncedCache.setInternal cfg st ssr pr k v inv).2.localCache k
        = (v, true)) := by
  constructor
  · intro e he
    unfold SyncedCache.setInternal
    simp [hopen, he, reportError_published, reportError_localCache,
      localGet_localSet_self]
  · intro data e hm hr hs
    unfold SyncedCache.setInternal
    simp [hopen, hm, hr, hs, reportError_published, reportError_localCache,
      traceStoreSet, localGet_localSet_self]

/-- Witness for C4: a failing marshaller at concrete inputs. -/
theorem set_error_paths_keep_local_witness :
    (SyncedCache.setInternal failMarshalConfig {} none none "k"
        (GoValue.vstr "v") false).1 = some (GoErr.marshalFailed "boom") ∧
    (SyncedCache.setInternal failMarshalConfig {} none none "k"
        (GoValue.vstr "v") false).2.trace.published
      = ({} : CacheState).trace.published ∧
    localGet (SyncedCache.setInternal failMarshalConfig {} none none "k"
        (GoValue.vstr "v") false).2.localCache "k" = (GoValue.vstr "v", true) :=
  (set_error_paths_keep_local failMarshalConfig {} none none "k"
      (GoValue.vstr "v") false rfl).1 (GoErr.marshalFailed "boom") rfl

/-- C5: if the local write (and, when permitted, the remote write)
succeed but publishing the synchronization event fails, setInternal
still returns nil, and the publish failure is reported through the
OnError callback. -/
theorem publish_failure_swallowed (cfg : Config) (st : CacheState)
    (ssr : Option GoErr) (k : String) (v : GoValue) (inv : Bool)
    (e : GoErr) (data : Bytes)
    (hopen : st.closed = false) (hm : cfg.marshal v = Except.ok data)
    (hstore : cfg.readerCanSetToRedis = false ∨ ssr = none)
    (hrep : cfg.hasOnError = true) :
    (SyncedCache.setInternal cfg st ssr (some e) k v inv).1 = none ∧
    e ∈ (SyncedCache.setInternal cfg st ssr (some e) k v inv).2.trace.reported := by
  unfold SyncedCache.setInternal SyncedCache.publishStep
  rcases hstore with hr | hs
  · simp [hopen, hm, hr, reportError, hrep, tracePublish]
  · cases hr : cfg.readerCanSetToRedis with
    | false => simp [hopen, hm, hr, reportError, hrep, tracePublish]
    | true => simp [hopen, hm, hr, hs, reportError, hrep, tracePublish, traceStoreSet]

/-- Witness for C5 at concrete inputs. -/
theorem publish_failure_swallowed_witness :
    (SyncedCache.setInternal testConfig {} none
        (some (GoErr.publishFailed "pubsub down")) "k" (GoValue.vstr "v") false).1
      = none ∧
    GoErr.publishFailed "pubsub down" ∈
      (SyncedCache.setInternal testConfig {} none
        (some (GoErr.publishFailed "pubsub down")) "k"
        (GoValue.vstr "v") false).2.trace.reported :=
  publish_failure_swallowed testConfig {} none "k" (GoValue.vstr "v") false
    (GoErr.publishFailed "pubsub down") (encodeVal (GoValue.vstr "v"))
    rfl rfl (Or.inr rfl) rfl

/-- C6: the synchronizer never invokes a registered callback for an
event whose Sender equals its own pod identity, and every successfully
deserialized event from a different sender is delivered to all
registered callbacks (an undecodable payload is delivered to none). -/
theorem self_event_filtering (ps : PubSubSynchronizer) (e : Event) :
    (e.sender = ps.podID → ps.deliverEvent (some e) = []) ∧
    (e.sender ≠ ps.podID →
      ps.deliverEvent (some e) = ps.callbacks.map (fun c => (c, e)) ∧
      ∀ c ∈ ps.callbacks, (c, e) ∈ ps.deliverEvent (some e)) ∧
    ps.deliverEvent none = [] := by
  refine ⟨?_, ?_, rfl⟩
  · intro h
    simp [PubSubSynchronizer.deliverEvent, h]
  · intro h
    have hb : (e.sender == ps.podID) = false := by
      simp [h]
    constructor
    · simp [PubSubSynchronizer.deliverEvent, hb]
    · intro c hc
      simp only [PubSubSynchronizer.deliverEvent, hb, Bool.false_eq_true, if_false,
        List.mem_map]
      exact ⟨c, hc, rfl⟩

/-- Witness for C6 at concrete inputs: a self event reaches no callback;
a peer event reaches a registered callback. -/
theorem self_event_filtering_witness :
    PubSubSynchronizer.deliverEvent ⟨"pod-a", [0, 1]⟩
        (some { key := "k", sender := "pod-a", action := actionSet, value := [1] })
      = [] ∧
    (0, ({ key := "k", sender := "pod-b", action := actionSet, value := [1] } : Event)) ∈
      PubSubSynchronizer.deliverEvent ⟨"pod-a", [0, 1]⟩
        (some { key := "k", sender := "pod-b", action := actionSet, value := [1] }) := by
  constructor
  · exact (self_event_filtering ⟨"pod-a", [0, 1]⟩
      { key := "k", sender := "pod-a", action := actionSet, value := [1] }).1 rfl
  · exact ((self_event_filtering ⟨"pod-a", [0, 1]⟩
      { key := "k", sender := "pod-b", action := actionSet, value := [1] }).2.1
        (by decide)).2 0 (by decide)

/-- C7: a delivered invalidate or delete event removes exactly the
entry for the event key and bumps only the Invalidations counter; a
clear event purges the whole local cache and bumps only Invalidations;
an unrecognized action changes nothing. -/
theorem peer_event_dispatch (cfg : Config) (st : CacheState) (e : Event) :
    ((e.action = actionInvalidate ∨ e.action = actionDelete) →
      localGet (SyncedCache.handleInvalidation cfg st e).localCache e.key
        = (GoValue.vnil, false) ∧
      (∀ q, q ≠ e.key →
        localGet (SyncedCache.handleInvalidation cfg st e).localCache q
          = localGet st.localCache q) ∧
      (SyncedCache.handleInvalidation cfg st e).stats
        = { st.stats with invalidations := st.stats.invalidations + 1 }) ∧
    (e.action = actionClear →
      (SyncedCache.handleInvalidation cfg st e).localCache = [] ∧
      (SyncedCache.handleInvalidation cfg st e).stats
        = { st.stats with invalidations := st.stats.invalidations + 1 }) ∧
    (e.action ≠ actionSet → e.action ≠ actionInvalidate →
      e.action ≠ actionDelete → e.action ≠ actionClear →
      SyncedCache.handleInvalidation cfg st e = st) := by
  refine ⟨?_, ?_, ?_⟩
  · intro h
    have hstep : SyncedCache.handleInvalidation cfg st e =
        { st with
          localCache := localDelete st.localCache e.key
          stats := { st.stats with invalidations := st.stats.invalidations + 1 } } := by
      rcases h with h | h <;>
        simp [SyncedCache.handleInvalidation, h, actionSet, actionInvalidate,
          actionDelete, actionClear]
    rw [hstep]
    exact ⟨localGet_localDelete_self st.localCache e.key,
      fun q hq => localGet_localDelete_ne st.localCache e.key q hq, rfl⟩
  · intro h
    simp [SyncedCache.handleInvalidation, h, actionSet, actionInvalidate,
      actionDelete, actionClear, localClear]
  · intro h1 h2 h3 h4
    have b1 : (e.action == actionSet) = false := by simp [h1]
    have b2 : (e.action == actionInvalidate) = false := by simp [h2]
    have b3 : (e.action == actionDelete) = false := by simp [h3]
    have b4 : (e.action == actionClear) = false := by simp [h4]
    simp [SyncedCache.handleInvalidation, b1, b2, b3, b4]

/-- Witness for C7 at concrete inputs. -/
theorem peer_event_dispatch_witness :
    localGet (SyncedCache.handleInvalidation testConfig
        { localCache := [("k", GoValue.vstr "v"), ("q", GoValue.vint 3)] }
        { key := "k", sender := "peer", action := actionDelete, value := [] }).localCache "k"
      = (GoValue.vnil, false) ∧
    localGet (SyncedCache.handleInvalidation testConfig
        { localCache := [("k", GoValue.vstr "v"), ("q", GoValue.vint 3)] }
        { key := "k", sender := "peer", action := actionDelete, value := [] }).localCache "q"
      = localGet [("k", GoValue.vstr "v"), ("q", GoValue.vint 3)] "q" ∧
    (SyncedCache.handleInvalidation testConfig
        { localCache := [("k", GoValue.vstr "v"), ("q", GoValue.vint 3)] }
        { key := "k", sender := "peer", action := actionDelete, value := [] }).stats.invalidations
      = 1 ∧
    SyncedCache.handleInvalidation testConfig
        { localCache := [("k", GoValue.vstr "v")] }
        { key := "k", sender := "peer", action := "bogus", value := [] }
      = { localCache := [("k", GoValue.vstr "v")] } := by
  have hd := peer_event_dispatch testConfig
    { localCache := [("k", GoValue.vstr "v"), ("q", GoValue.vint 3)] }
    { key := "k", sender := "peer", action := actionDelete, value := [] }
  have hu := peer_event_dispatch testConfig
    { localCache := [("k", GoValue.vstr "v")] }
    { key := "k", sender := "peer", action := "bogus", value := [] }
  refine ⟨(hd.1 (Or.inr rfl)).1, (hd.1 (Or.inr rfl)).2.1 "q" (by decide), ?_, ?_⟩
  · have := (hd.1 (Or.inr rfl)).2.2
    simpa using congrArg Stats.invalidations this
  · exact hu.2.2 (by decide) (by decide) (by decide) (by decide)

/-- C8: after Close, every write operation returns the cache-closed
error with the state untouched (no store, synchronizer or local-cache
interaction), and Get returns (nil, false) with the state untouched. -/
theorem closed_cache_rejects_ops (cfg : Config) (st : CacheState)
    (ssr pr pd pc : Option GoErr) (sr : Except StoreError Bytes)
    (k : String) (v : GoValue)
    (h : st.closed = true) :
    SyncedCache.Set cfg st ssr pr k v = (some GoErr.cacheClosed, st) ∧
    SyncedCache.SetWithInvalidate cfg st ssr pr k v = (some GoErr.cacheClosed, st) ∧
    SyncedCache.Delete cfg st pd pr k = (some GoErr.cacheClosed, st) ∧
    SyncedCache.Clear cfg st pc pr = (some GoErr.cacheClosed, st) ∧
    SyncedCache.Get cfg st sr k = ((GoValue.vnil, false), st) := by
  unfold SyncedCache.Set SyncedCache.SetWithInvalidate SyncedCache.setInternal
    SyncedCache.Delete SyncedCache.Clear SyncedCache.Get
  simp [h]

/-- Witness for C8 at a concrete closed state. -/
theorem closed_cache_rejects_ops_witness :
    SyncedCache.Set testConfig { closed := true } none none "k" (GoValue.vstr "v")
      = (some GoErr.cacheClosed, { closed := true }) ∧
    SyncedCache.SetWithInvalidate testConfig { closed := true } none none "k"
        (GoValue.vstr "v")
      = (some GoErr.cacheClosed, { closed := true }) ∧
    SyncedCache.Delete testConfig { closed := true } none none "k"
      = (some GoErr.cacheClosed, { closed := true }) ∧
    SyncedCache.Clear testConfig { closed := true } none none
      = (some GoErr.cacheClosed, { closed := true }) ∧
    SyncedCache.Get testConfig { closed := true }
        (Except.error StoreError.notFound) "k"
      = ((GoValue.vnil, false), { closed := true }) :=
  closed_cache_rejects_ops testConfig { closed := true } none none none none
    (Except.error StoreError.notFound) "k" (GoValue.vstr "v") rfl

theorem close_on_closed (st : CacheState) (a b : Option GoErr)
    (hc : st.closed = true) : SyncedCache.Close st a b = (none, st) := by
  unfold SyncedCache.Close
  simp [hc]

/-- C9: Close on an open instance marks the cache closed, tears down the
synchronizer, then the store, then the local cache, and returns the
first error among the teardown steps; a second Close returns nil and
leaves the state (teardown trace included) untouched. -/
theorem close_idempotent_teardown (st : CacheState) (r1 r2 r1b r2b : Option GoErr)
    (h : st.closed = false) :
    (SyncedCache.Close st r1 r2).2.closed = true ∧
    (SyncedCache.Close st r1 r2).2.trace.closeCalls
      = st.trace.closeCalls ++ ["sync", "store", "local"] ∧
    (SyncedCache.Close st r1 r2).1
      = (match r1 with | some e => some e | none => r2) ∧
    SyncedCache.Close (SyncedCache.Close st r1 r2).2 r1b r2b
      = (none, (SyncedCache.Close st r1 r2).2) := by
  refine ⟨?_, ?_, ?_, ?_⟩
  · unfold SyncedCache.Close
    simp [h]
  · unfold SyncedCache.Close
    simp [h]
  · unfold SyncedCache.Close
    simp [h]
    cases r1 <;> cases r2 <;> rfl
  · have hc : (SyncedCache.Close st r1 r2).2.closed = true := by
      unfold SyncedCache.Close
      simp [h]
    exact close_on_closed _ r1b r2b hc

/-- Witness for C9 at concrete inputs: both teardown steps fail and the
first (synchronizer) error is returned; the second Close is a no-op. -/
theorem close_idempotent_teardown_witness :
    (SyncedCache.Close {} (some (GoErr.closeFailed "sync down"))
        (some (GoErr.closeFailed "store down"))).2.closed = true ∧
    (SyncedCache.Close {} (some (GoErr.closeFailed "sync down"))
        (some (GoErr.closeFailed "store down"))).2.trace.closeCalls
      = ({} : CacheState).trace.closeCalls ++ ["sync", "store", "local"] ∧
    (SyncedCache.Close {} (some (GoErr.closeFailed "sync down"))
        (some (GoErr.closeFailed "store down"))).1
      = some (GoErr.closeFailed "sync down") ∧
    SyncedCache.Close
        (SyncedCache.Close {} (some (GoErr.closeFailed "sync down"))
          (some (GoErr.closeFailed "store down"))).2 none none
      = (none,
          (SyncedCache.Close {} (some (GoErr.closeFailed "sync down"))
            (some (GoErr.closeFailed "store down"))).2) :=
  close_idempotent_teardown {} (some (GoErr.closeFailed "sync down"))
    (some (GoErr.closeFailed "store down")) none none rfl

/-- C10: with write-through disabled, a successful-serialization Set
never invokes the remote store Set (or any other store write): it
returns nil, updates the local cache, and publishes the set event. -/
theorem reader_mode_never_writes_store (cfg : Config) (st st1 : CacheState)
    (ssr pr : Option GoErr) (k : String) (v : GoValue) (data : Bytes)
    (r : Option GoErr)
    (hr : cfg.readerCanSetToRedis = false) (hopen : st.closed = false)
    (hm : cfg.marshal v = Except.ok data)
    (h : SyncedCache.Set cfg st ssr pr k v = (r, st1)) :
    r = none ∧
    st1.trace.storeSets = st.trace.storeSets ∧
    st1.trace.storeDeletes = st.trace.storeDeletes ∧
    st1.trace.storeClears = st.trace.storeClears ∧
    localGet st1.localCache k = (v, true) ∧
    st1.trace.published = st.trace.published
      ++ [{ key := k, sender := cfg.podID, action := actionSet, value := data }] := by
  unfold SyncedCache.Set SyncedCache.setInternal SyncedCache.publishStep at h
  simp only [hopen, Bool.false_eq_true, if_false, hm, hr] at h
  cases hp : pr with
  | some e =>
    rw [hp] at h
    simp only [Prod.mk.injEq] at h
    obtain ⟨h1, h2⟩ := h
    subst h1
    subst h2
    refine ⟨rfl, ?_, ?_, ?_, ?_, ?_⟩ <;>
      simp [reportError_storeSets, reportError_storeDeletes, reportError_storeClears,
        reportError_localCache, reportError_published, tracePublish,
        localGet_localSet_self]
  | none =>
    rw [hp] at h
    simp only [Prod.mk.injEq] at h
    obtain ⟨h1, h2⟩ := h
    subst h1
    subst h2
    refine ⟨rfl, ?_, ?_, ?_, ?_, ?_⟩ <;>
      simp [tracePublish, localGet_localSet_self]

/-- Witness for C10 at concrete inputs on a reader instance. -/
theorem reader_mode_never_writes_store_witness :
    (SyncedCache.Set readerConfig {} none none "k" (GoValue.vstr "v")).1 = none ∧
    (SyncedCache.Set readerConfig {} none none "k"
        (GoValue.vstr "v")).2.trace.storeSets = ({} : CacheState).trace.storeSets ∧
    (SyncedCache.Set readerConfig {} none none "k"
        (GoValue.vstr "v")).2.trace.storeDeletes
      = ({} : CacheState).trace.storeDeletes ∧
    (SyncedCache.Set readerConfig {} none none "k"
        (GoValue.vstr "v")).2.trace.storeClears
      = ({} : CacheState).trace.storeClears ∧
    localGet (SyncedCache.Set readerConfig {} none none "k"
        (GoValue.vstr "v")).2.localCache "k" = (GoValue.vstr "v", true) ∧
    (SyncedCache.Set readerConfig {} none none "k"
        (GoValue.vstr "v")).2.trace.published
      = ({} : CacheState).trace.published
        ++ [{ key := "k", sender := readerConfig.podID, action := actionSet,
              value := encodeVal (GoValue.vstr "v") }] :=
  reader_mode_never_writes_store readerConfig {}
    (SyncedCache.Set readerConfig {} none none "k" (GoValue.vstr "v")).2
    none none "k" (GoValue.vstr "v") (encodeVal (GoValue.vstr "v"))
    (SyncedCache.Set readerConfig {} none none "k" (GoValue.vstr "v")).1
    rfl rfl rfl rfl

end DistCache
